import Mathlib

/-!
Shallow embedding of `cita-tool/src/client.rs` (cita-cli repository).

The file models the JSON-RPC client: the request dispatcher
(`make_requests_with_all_url`, `make_requests_with_params_list`,
`send_request`, `send_request_with_multiple_params`, `run`), the
transaction builder (`generate_transaction`), chain-id resolution
(`get_chain_id` with `get_metadata`), and the stubbed `ClientExt`
query methods.

Modelling conventions:
- u64 arithmetic is `Nat` reduced mod `U64SIZE = 2 ^ 64` where the Rust
  code wraps (`overflowing_add`); the u32 cast is `% 2 ^ 32`.
- A Rust panic (`unwrap`, `expect` on a missing value) is `none` in an
  `Option`-returning model.
- The HTTP collaborator is a function `Net : String → JsonRpcParams →
  Option String` (url and request body to response chunk, `none` being a
  transport error); JSON serialization of the body is folded into the
  collaborator.  Response deserialization (`serde_json::from_slice`) is a
  function `Parse : String → Option JsonRpcResponse`.
- The per-call randomness of `Uuid::new_v4` is made explicit: the fresh
  uuid bytes are a parameter of `generate_transaction`.
- Each dispatching operation additionally reports how many outbound
  network requests it issues (the length of the request list it builds),
  so that frame properties about network calls are statable.
-/

namespace CitaClient

/-- Wrap-around bound of the u64 request-id counter. -/
def U64SIZE : Nat := 2 ^ 64

/-- Modelled from the spec: §3 "RPC Parameter Set ... tagged value type
(integer, string, list, nested map)"; the `ParamsValue` enum of the
jsonrpc module (not under src/), with constructors Int, String, List, Map
(the map as an association list). -/
inductive ParamsValue where
  | int : Nat → ParamsValue
  | string : String → ParamsValue
  | list : List ParamsValue → ParamsValue
  | map : List (String × ParamsValue) → ParamsValue
deriving Repr

/-- Modelled from the spec: §3 "RPC Parameter Set: an ordered mapping from
string keys to a tagged value type"; `JsonRpcParams` of the jsonrpc
module, as an association list. -/
abbrev JsonRpcParams := List (String × ParamsValue)

/-- Map insertion with replacement (HashMap::insert semantics of the
jsonrpc module's `JsonRpcParams::insert`). -/
def JsonRpcParams.insert (p : JsonRpcParams) (k : String) (v : ParamsValue) :
    JsonRpcParams :=
  (k, v) :: List.filter (fun kv => kv.fst != k) p

/-- Modelled from the spec: §3 "RPC Response: a tagged result: either a
single scalar value, a structured map, or an error object"; the
`ResponseValue` enum (constructors Singe and Map) of the jsonrpc module. -/
inductive ResponseValue where
  | singe : ParamsValue → ResponseValue
  | map : List (String × ParamsValue) → ResponseValue
deriving Repr

/-- Modelled from the spec: §6 response body
`id/result` or `id/error (code, message)`; the `JsonRpcResponse` struct of
the jsonrpc module, whose `result()` accessor yields the optional result. -/
structure JsonRpcResponse where
  jsonrpc : String
  id : Nat
  result : Option ResponseValue
  error : Option (Int × String)
deriving Repr

/-- `Default::default()` for `JsonRpcResponse` (derived Default in the
jsonrpc module: empty string, zero id, absent result and error). -/
def JsonRpcResponse.defaultResp : JsonRpcResponse :=
  { jsonrpc := "", id := 0, result := none, error := none }

/-- Opaque private signing key (`PrivKey` is an external collaborator). -/
structure PrivKey where
  key : Nat
deriving Repr

/-- The `Client` struct: request-id counter, optional chain id, optional
private key.  The tokio `Core` handle is runtime plumbing, not data. -/
structure Client where
  id : Nat
  chain_id : Option Nat
  private_key : Option PrivKey
deriving Repr

/-- `Client::new()`: id 0, no chain id, no private key. -/
def Client.new : Client :=
  { id := 0, chain_id := none, private_key := none }

/-- `Client::set_chain_id`. -/
def Client.set_chain_id (c : Client) (chain_id : Nat) : Client :=
  { c with chain_id := some chain_id }

/-- `Client::set_private_key`. -/
def Client.set_private_key (c : Client) (k : PrivKey) : Client :=
  { c with private_key := some k }

/-- HTTP collaborator: url and request body to optional response chunk. -/
abbrev Net := String → JsonRpcParams → Option String

/-- Response deserializer (`serde_json::from_slice::<JsonRpcResponse>`). -/
abbrev Parse := String → Option JsonRpcResponse

/-- `Client::make_requests_with_all_url`: advance the id counter once
(wrapping), insert the resulting id into the params, and build one request
per url, every request carrying that same body. -/
def make_requests_with_all_url (c : Client) (urls : List String)
    (params : JsonRpcParams) : List (String × JsonRpcParams) × Client :=
  let nid := (c.id + 1) % U64SIZE
  let params1 := params.insert "id" (ParamsValue.int nid)
  (urls.map (fun u => (u, params1)), { c with id := nid })

/-- The id-assignment loop of `make_requests_with_params_list`: each
parameter set advances the counter once (wrapping) and receives the new
id; returns the bodies in order and the final counter value. -/
def assignIds (s : Nat) : List JsonRpcParams → List JsonRpcParams × Nat
  | [] => ([], s)
  | p :: ps =>
    let nid := (s + 1) % U64SIZE
    let rest := assignIds nid ps
    (p.insert "id" (ParamsValue.int nid) :: rest.1, rest.2)

/-- `Client::make_requests_with_params_list`: one request per parameter
set, all to the single url, ids assigned in sequence order. -/
def make_requests_with_params_list (c : Client) (url : String)
    (ps : List JsonRpcParams) : List (String × JsonRpcParams) × Client :=
  let bodies := assignIds c.id ps
  (bodies.1.map (fun b => (url, b)), { c with id := bodies.2 })

/-- `Client::run`: drive all pending requests to completion
(`core.run(join_all(reqs)).unwrap()`, any transport failure panics), then
deserialize each chunk (`serde_json::from_slice(..).unwrap()`, any decode
failure panics).  Output order follows the request list, not completion
order. -/
def run (net : Net) (parse : Parse) (reqs : List (String × JsonRpcParams)) :
    Option (List JsonRpcResponse) := do
  let chunks ← reqs.mapM (fun r => net r.1 r.2)
  chunks.mapM parse

/-- `Client::send_request`: build the broadcast request set and run it;
the only return is `Ok(self.run(reqs))`.  The third component counts the
outbound requests issued. -/
def send_request (net : Net) (parse : Parse) (c : Client)
    (urls : List String) (params : JsonRpcParams) :
    Option (Except Unit (List JsonRpcResponse) × Client × Nat) :=
  let rc := make_requests_with_all_url c urls params
  match run net parse rc.1 with
  | none => none
  | some rs => some (Except.ok rs, rc.2, rc.1.length)

/-- `Client::send_request_with_multiple_params`: build the per-params
request list and run it; the only return is `Ok(self.run(reqs))`. -/
def send_request_with_multiple_params (net : Net) (parse : Parse)
    (c : Client) (url : String) (ps : List JsonRpcParams) :
    Option (Except Unit (List JsonRpcResponse) × Client × Nat) :=
  let rc := make_requests_with_params_list c url ps
  match run net parse rc.1 with
  | none => none
  | some rs => some (Except.ok rs, rc.2, rc.1.length)

/-- Hex digit value (the hex crate's digit decoding). -/
def hexDigitVal (c : Char) : Option Nat :=
  if ('0' ≤ c ∧ c ≤ '9') then some (c.toNat - '0'.toNat)
  else if ('a' ≤ c ∧ c ≤ 'f') then some (c.toNat - 'a'.toNat + 10)
  else if ('A' ≤ c ∧ c ≤ 'F') then some (c.toNat - 'A'.toNat + 10)
  else none

/-- Pairwise hex decoding: fails on an odd-length tail or a non-hex
character. -/
def hexDecodeList : List Char → Option (List Nat)
  | [] => some []
  | [_] => none
  | c1 :: c2 :: rest => do
    let hi ← hexDigitVal c1
    let lo ← hexDigitVal c2
    let r ← hexDecodeList rest
    pure ((hi * 16 + lo) :: r)

/-- `hex::decode`: hex string to bytes, failing on malformed input. -/
def decode (s : String) : Option (List Nat) :=
  hexDecodeList s.toList

/-- Lower-case hex character of a digit value. -/
def hexChar (n : Nat) : Char :=
  if n < 10 then Char.ofNat (48 + n) else Char.ofNat (97 + n - 10)

/-- `hex::encode`: bytes to lower-case hex string. -/
def encode (bs : List Nat) : String :=
  String.mk (List.flatten (bs.map (fun b => [hexChar (b / 16 % 16), hexChar (b % 16)])))

/-- The `Transaction` record as populated by `generate_transaction`
(protobuf setters `set_data`, `set_to`, `set_nonce`,
`set_valid_until_block`, `set_quota`, `set_chain_id`). -/
structure Transaction where
  data : List Nat
  /-- The `to` field of the record (`to` is reserved in Lean). -/
  to_addr : String
  nonce : String
  valid_until_block : Nat
  quota : Nat
  chain_id : Nat
deriving Repr

/-- `Client::generate_transaction`: decode the hex payload
(`decode(code).unwrap()`), populate the transaction record (nonce = hex
of fresh uuid bytes, validity = current_height + 88 in u64, quota =
1000000, chain id from the client via `expect`), then sign with the
configured key (`self.private_key()` unwraps).  The signing and protobuf
serialization are external collaborators that do not alter the embedded
fields; the model returns the populated record, `none` on any of the
three panics (bad hex, missing chain id, missing key). -/
def generate_transaction (c : Client) (uuid_bytes : List Nat)
    (code : String) (address : String) (current_height : Nat) :
    Option Transaction :=
  match decode code with
  | none => none
  | some data =>
    match c.chain_id with
    | none => none
    | some cid =>
      match c.private_key with
      | none => none
      | some _ =>
        some { data := data, to_addr := address, nonce := encode uuid_bytes,
               valid_until_block := (current_height + 88) % U64SIZE,
               quota := 1000000, chain_id := cid }

/-- The params of `get_metadata`: `params = ["latest"]`,
`method = "cita_getMetaData"`. -/
def metaParams : JsonRpcParams :=
  JsonRpcParams.insert
    (JsonRpcParams.insert []
      "params" (ParamsValue.list [ParamsValue.string "latest"]))
    "method" (ParamsValue.string "cita_getMetaData")

/-- `ClientExt::get_metadata` for `Client`:
`send_request(vec![url], params).unwrap().pop().unwrap()`. -/
def get_metadata (net : Net) (parse : Parse) (c : Client) (url : String) :
    Option (JsonRpcResponse × Client × Nat) :=
  match send_request net parse c [url] metaParams with
  | none => none
  | some (Except.error _, _, _) => none
  | some (Except.ok rs, c1, n) =>
    match rs.getLast? with
    | none => none
    | some r => some (r, c1, n)

/-- `Client::get_chain_id`: return the cached chain id if configured
(zero network calls); otherwise query metadata, and on a map result
`remove("chainId").unwrap()` (panic when the key is absent), caching and
returning the integer value (cast to u32), `0` on a non-integer value or
a non-map result. -/
def get_chain_id (net : Net) (parse : Parse) (c : Client) (url : String) :
    Option (Nat × Client × Nat) :=
  match c.chain_id with
  | some v => some (v, c, 0)
  | none =>
    match get_metadata net parse c url with
    | none => none
    | some (r, c1, n) =>
      match r.result with
      | some (ResponseValue.map m) =>
        match List.lookup "chainId" m with
        | none => none
        | some (ParamsValue.int cid) =>
          some (cid % 2 ^ 32, { c1 with chain_id := some (cid % 2 ^ 32) }, n)
        | some _ => some (0, c1, n)
      | _ => some (0, c1, n)

/-- `ClientExt::get_net_peer_count` stub: `Default::default()` for u32,
no network traffic, client untouched. -/
def get_net_peer_count (c : Client) (_url : String) : Nat × Client × Nat :=
  (0, c, 0)

/-- `ClientExt::send_transaction` stub: `Ok(String::from("tx_hash"))`. -/
def send_transaction (c : Client) (_url : String) :
    Except String String × Client × Nat :=
  (Except.ok "tx_hash", c, 0)

/-- `ClientExt::get_block_by_hash` stub: default response. -/
def get_block_by_hash (c : Client) (_url : String) :
    JsonRpcResponse × Client × Nat :=
  (JsonRpcResponse.defaultResp, c, 0)

/-- `ClientExt::get_block_by_number` stub: default response. -/
def get_block_by_number (c : Client) (_url : String) :
    JsonRpcResponse × Client × Nat :=
  (JsonRpcResponse.defaultResp, c, 0)

/-- `ClientExt::get_transaction_receipt` stub: default response. -/
def get_transaction_receipt (c : Client) (_url : String) :
    JsonRpcResponse × Client × Nat :=
  (JsonRpcResponse.defaultResp, c, 0)

/-- `ClientExt::get_logs` stub: default response. -/
def get_logs (c : Client) (_url : String) : JsonRpcResponse × Client × Nat :=
  (JsonRpcResponse.defaultResp, c, 0)

/-- `ClientExt::call` stub: default response. -/
def call (c : Client) (_url : String) : JsonRpcResponse × Client × Nat :=
  (JsonRpcResponse.defaultResp, c, 0)

/-- `ClientExt::get_transaction` stub: default response. -/
def get_transaction (c : Client) (_url : String) :
    JsonRpcResponse × Client × Nat :=
  (JsonRpcResponse.defaultResp, c, 0)

/-- `ClientExt::get_transaction_count` stub: 0. -/
def get_transaction_count (c : Client) (_url : String) : Nat × Client × Nat :=
  (0, c, 0)

/-- `ClientExt::get_code` stub: empty string. -/
def get_code (c : Client) (_url : String) : String × Client × Nat :=
  ("", c, 0)

/-- `ClientExt::get_abi` stub: empty string. -/
def get_abi (c : Client) (_url : String) : String × Client × Nat :=
  ("", c, 0)

/-- `ClientExt::get_balance` stub: 0. -/
def get_balance (c : Client) (_url : String) : Nat × Client × Nat :=
  (0, c, 0)

/-- `ClientExt::new_filter` stub: 0. -/
def new_filter (c : Client) (_url : String) : Nat × Client × Nat :=
  (0, c, 0)

/-- `ClientExt::new_block_filter` stub: 0. -/
def new_block_filter (c : Client) (_url : String) : Nat × Client × Nat :=
  (0, c, 0)

/-- `ClientExt::uninstall_filter` stub: false. -/
def uninstall_filter (c : Client) (_url : String) : Bool × Client × Nat :=
  (false, c, 0)

/-- `ClientExt::get_filter_changes` stub: default response. -/
def get_filter_changes (c : Client) (_url : String) :
    JsonRpcResponse × Client × Nat :=
  (JsonRpcResponse.defaultResp, c, 0)

/-- `ClientExt::get_filter_logs` stub: default response. -/
def get_filter_logs (c : Client) (_url : String) :
    JsonRpcResponse × Client × Nat :=
  (JsonRpcResponse.defaultResp, c, 0)

/-- `ClientExt::get_transaction_proof` stub: default response. -/
def get_transaction_proof (c : Client) (_url : String) :
    JsonRpcResponse × Client × Nat :=
  (JsonRpcResponse.defaultResp, c, 0)

/-- Extract the "id" field of a request body when it is an integer. -/
def idOfParams (p : JsonRpcParams) : Option Nat :=
  match List.lookup "id" p with
  | some (ParamsValue.int n) => some n
  | _ => none

/-! ## Helper lemmas -/

theorem mapM_option_length {α β : Type} (f : α → Option β) :
    ∀ (l : List α) (r : List β), l.mapM f = some r → r.length = l.length := by
  intro l
  induction l with
  | nil =>
    intro r h
    simp only [List.mapM_nil, pure, Option.some.injEq] at h
    simp [← h]
  | cons a t ih =>
    intro r h
    rw [List.mapM_cons] at h
    cases hf : f a with
    | none => rw [hf] at h; simp at h
    | some b =>
      rw [hf] at h
      cases ht : t.mapM f with
      | none => rw [ht] at h; simp at h
      | some bs =>
        rw [ht] at h
        simp only [Option.bind_eq_bind, Option.some_bind, pure,
          Option.some.injEq] at h
        subst h
        simp [ih bs ht]

theorem mapM_option_get {α β : Type} (f : α → Option β) :
    ∀ (l : List α) (r : List β), l.mapM f = some r →
      ∀ (i : Nat) (hi : i < l.length) (hj : i < r.length),
        f (l.get ⟨i, hi⟩) = some (r.get ⟨i, hj⟩) := by
  intro l
  induction l with
  | nil =>
    intro r h i hi hj
    exact absurd hi (by simp)
  | cons a t ih =>
    intro r h i hi hj
    rw [List.mapM_cons] at h
    cases hf : f a with
    | none => rw [hf] at h; simp at h
    | some b =>
      rw [hf] at h
      cases ht : t.mapM f with
      | none => rw [ht] at h; simp at h
      | some bs =>
        rw [ht] at h
        simp only [Option.bind_eq_bind, Option.some_bind, pure,
          Option.some.injEq] at h
        subst h
        cases i with
        | zero => simpa using hf
        | succ n =>
          have hn : n < t.length := by simpa using hi
          have hm : n < bs.length := by simpa using hj
          simpa using ih bs ht n hn hm

theorem assignIds_length (s : Nat) (ps : List JsonRpcParams) :
    (assignIds s ps).1.length = ps.length := by
  induction ps generalizing s with
  | nil => rfl
  | cons p t ih => simp [assignIds, ih]

theorem assignIds_get (s : Nat) (ps : List JsonRpcParams) :
    ∀ (i : Nat) (hi : i < ps.length) (hj : i < (assignIds s ps).1.length),
      (assignIds s ps).1.get ⟨i, hj⟩ =
        JsonRpcParams.insert (ps.get ⟨i, hi⟩) "id"
          (ParamsValue.int ((s + i + 1) % U64SIZE)) := by
  induction ps generalizing s with
  | nil =>
    intro i hi hj
    exact absurd hi (by simp)
  | cons p t ih =>
    intro i hi hj
    cases i with
    | zero => rfl
    | succ n =>
      have hn : n < t.length := by simpa using hi
      have hm : n < (assignIds ((s + 1) % U64SIZE) t).1.length := by
        rw [assignIds_length]; exact hn
      have := ih ((s + 1) % U64SIZE) n hn hm
      simp only [assignIds, List.get_cons_succ, this]
      have harith : ((s + 1) % U64SIZE + n + 1) % U64SIZE
          = (s + Nat.succ n + 1) % U64SIZE := by
        rw [Nat.add_assoc, Nat.mod_add_mod, Nat.add_assoc]
        congr 1
        omega
      rw [harith]

theorem assignIds_snd (s : Nat) (ps : List JsonRpcParams) (hs : s < U64SIZE) :
    (assignIds s ps).2 = (s + ps.length) % U64SIZE := by
  induction ps generalizing s with
  | nil => simp [assignIds, Nat.mod_eq_of_lt hs]
  | cons p t ih =>
    have hlt : (s + 1) % U64SIZE < U64SIZE :=
      Nat.mod_lt _ (by simp [U64SIZE])
    have := ih ((s + 1) % U64SIZE) hlt
    simp only [assignIds, this, List.length_cons, Nat.mod_add_mod]
    congr 1
    omega

theorem get_chain_id_not_map (net : Net) (parse : Parse) (c : Client)
    (url : String) (r : JsonRpcResponse) (c1 : Client) (n : Nat)
    (hnone : c.chain_id = none)
    (hm : get_metadata net parse c url = some (r, c1, n))
    (hnm : ∀ m, r.result ≠ some (ResponseValue.map m)) :
    get_chain_id net parse c url = some (0, c1, n) := by
  unfold get_chain_id
  rw [hnone, hm]
  cases hres : r.result with
  | none => simp [hres]
  | some v =>
    cases v with
    | singe pv => simp [hres]
    | map m => exact absurd hres (hnm m)

theorem get_chain_id_non_int (net : Net) (parse : Parse) (c : Client)
    (url : String) (r : JsonRpcResponse) (c1 : Client) (n : Nat)
    (m : List (String × ParamsValue)) (v : ParamsValue)
    (hnone : c.chain_id = none)
    (hm : get_metadata net parse c url = some (r, c1, n))
    (hres : r.result = some (ResponseValue.map m))
    (hlk : List.lookup "chainId" m = some v)
    (hnint : ∀ k, v ≠ ParamsValue.int k) :
    get_chain_id net parse c url = some (0, c1, n) := by
  unfold get_chain_id
  rw [hnone, hm]
  cases v with
  | int k => exact absurd rfl (hnint k)
  | string s => simp [hres, hlk]
  | list l => simp [hres, hlk]
  | map m2 => simp [hres, hlk]

theorem get_chain_id_missing_key (net : Net) (parse : Parse) (c : Client)
    (url : String) (r : JsonRpcResponse) (c1 : Client) (n : Nat)
    (m : List (String × ParamsValue))
    (hnone : c.chain_id = none)
    (hm : get_metadata net parse c url = some (r, c1, n))
    (hres : r.result = some (ResponseValue.map m))
    (hlk : List.lookup "chainId" m = none) :
    get_chain_id net parse c url = none := by
  unfold get_chain_id
  rw [hnone, hm]
  simp [hres, hlk]

theorem get_metadata_frame (net : Net) (parse : Parse) (c : Client)
    (url : String) (r : JsonRpcResponse) (c1 : Client) (n : Nat)
    (h : get_metadata net parse c url = some (r, c1, n)) :
    c1 = { c with id := (c.id + 1) % U64SIZE } ∧ n = 1 := by
  simp only [get_metadata, send_request] at h
  cases hr : run net parse (make_requests_with_all_url c [url] metaParams).1 with
  | none => rw [hr] at h; simp at h
  | some rs =>
    rw [hr] at h
    cases hl : rs.getLast? with
    | none =>
      simp only [hl] at h
      simp at h
    | some r0 =>
      simp only [hl] at h
      simp only [Option.some.injEq, Prod.mk.injEq] at h
      exact ⟨h.2.1.symm, h.2.2.symm⟩

theorem get_chain_id_calls_eq_one (net : Net) (parse : Parse) (c : Client)
    (url : String) (v2 : Nat) (c2 : Client) (n2 : Nat)
    (hnone : c.chain_id = none)
    (h : get_chain_id net parse c url = some (v2, c2, n2)) : n2 = 1 := by
  unfold get_chain_id at h
  rw [hnone] at h
  cases hmm : get_metadata net parse c url with
  | none => rw [hmm] at h; exact absurd h (by simp)
  | some t =>
    obtain ⟨r1, c1, n1⟩ := t
    have hn1 : n1 = 1 := (get_metadata_frame net parse c url r1 c1 n1 hmm).2
    rw [hmm] at h
    cases hres : r1.result with
    | none =>
      simp only [hres, Option.some.injEq, Prod.mk.injEq] at h
      omega
    | some v =>
      cases v with
      | singe pv =>
        simp only [hres, Option.some.injEq, Prod.mk.injEq] at h
        omega
      | map m =>
        simp only [hres] at h
        cases hlk : List.lookup "chainId" m with
        | none =>
          simp only [hlk] at h
          exact Option.noConfusion h
        | some pv =>
          simp only [hlk] at h
          cases pv with
          | int k =>
            simp only [Option.some.injEq, Prod.mk.injEq] at h
            omega
          | string s =>
            simp only [Option.some.injEq, Prod.mk.injEq] at h
            omega
          | list l =>
            simp only [Option.some.injEq, Prod.mk.injEq] at h
            omega
          | map m2 =>
            simp only [Option.some.injEq, Prod.mk.injEq] at h
            omega

/-! ## Claim C1 -/

/-- C1: the claim states that in single-endpoint, single-params broadcast
mode each of the N outgoing requests carries a freshly incremented,
distinct id.  Counterexample: a client with counter 5 broadcasting to two
urls produces two requests both carrying id 6 — the id list is [6, 6],
which is not distinct (not Nodup). -/
theorem c1_ids_not_distinct :
    (make_requests_with_all_url (Client.mk 5 none none) ["a", "b"] []).1.map
      (fun r => idOfParams r.2) = [some 6, some 6] ∧
    ¬ ((make_requests_with_all_url (Client.mk 5 none none) ["a", "b"] []).1.map
      (fun r => idOfParams r.2)).Nodup := by
  constructor
  · rfl
  · decide

/-- C1 (amended): `make_requests_with_all_url` advances the id counter
exactly once per call (wrapping mod 2^64), not once per outbound request;
the same request body, carrying that single fresh id, is sent to every
URL in input order. -/
theorem c1_amended_broadcast_single_increment (c : Client)
    (urls : List String) (params : JsonRpcParams) :
    make_requests_with_all_url c urls params =
      (urls.map (fun u =>
        (u, params.insert "id" (ParamsValue.int ((c.id + 1) % U64SIZE)))),
       { c with id := (c.id + 1) % U64SIZE }) := rfl

/-! ## Claim C2 -/

/-- C2: the claim states that a metadata response whose result map is
missing the `chainId` field makes `get_chain_id` return 0 without
failing.  Counterexample: a response whose result is the map
[("foo", 1)] — the code's `remove("chainId").unwrap()` panics (`none`
in the model) instead of returning 0. -/
theorem c2_missing_chain_id_panics :
    get_chain_id (fun _ _ => some "x")
      (fun _ => some (JsonRpcResponse.mk "" 0
        (some (ResponseValue.map [("foo", ParamsValue.int 1)])) none))
      (Client.mk 0 none none) "u" = none := rfl

/-- C2 (amended): with no cached chain id, on a metadata response whose
result is not a map `get_chain_id` returns 0 without failing; on a map
whose `chainId` value is present but not an integer it also returns 0;
but on a map with no `chainId` key at all it panics (unwrap of None)
rather than returning 0. -/
theorem c2_amended_fallback (net : Net) (parse : Parse) (c : Client)
    (url : String) (r : JsonRpcResponse) (c1 : Client) (n : Nat)
    (hnone : c.chain_id = none)
    (hm : get_metadata net parse c url = some (r, c1, n)) :
    ((∀ m, r.result ≠ some (ResponseValue.map m)) →
       get_chain_id net parse c url = some (0, c1, n)) ∧
    (∀ m, r.result = some (ResponseValue.map m) →
       List.lookup "chainId" m = none →
       get_chain_id net parse c url = none) ∧
    (∀ m v, r.result = some (ResponseValue.map m) →
       List.lookup "chainId" m = some v →
       (∀ k, v ≠ ParamsValue.int k) →
       get_chain_id net parse c url = some (0, c1, n)) := by
  refine ⟨?_, ?_, ?_⟩
  · intro hnm
    exact get_chain_id_not_map net parse c url r c1 n hnone hm hnm
  · intro m hres hlk
    exact get_chain_id_missing_key net parse c url r c1 n m hnone hm hres hlk
  · intro m v hres hlk hnint
    exact get_chain_id_non_int net parse c url r c1 n m v hnone hm hres hlk
      hnint

/-- Witness for the amended C2: a concrete malformed (result-less)
metadata response makes `get_chain_id` return 0 without failing. -/
theorem c2_amended_fallback_witness :
    get_chain_id (fun _ _ => some "x")
      (fun _ => some (JsonRpcResponse.mk "" 0 none none))
      (Client.mk 3 none none) "u" =
      some (0, Client.mk 4 none none, 1) :=
  (c2_amended_fallback (fun _ _ => some "x")
      (fun _ => some (JsonRpcResponse.mk "" 0 none none))
      (Client.mk 3 none none) "u"
      (JsonRpcResponse.mk "" 0 none none)
      (Client.mk 4 none none) 1 rfl rfl).1
    (fun _ h => Option.noConfusion h)

/-! ## Claim C3 -/

/-- C3: with chain id 1 and a private key configured,
`generate_transaction` on a valid hex payload, recipient "" and current
height h (within u64 range) builds a record embedding
valid_until_block = h + 88, quota = 1000000, chain_id = 1 and an empty
`to`; in particular h = 100 gives 188. -/
theorem c3_transaction_fields (c : Client) (uuid : List Nat) (code : String)
    (h : Nat) (d : List Nat) (k : PrivKey)
    (hcid : c.chain_id = some 1) (hk : c.private_key = some k)
    (hd : decode code = some d) (hh : h + 88 < U64SIZE) :
    generate_transaction c uuid code "" h =
      some (Transaction.mk d "" (encode uuid) (h + 88) 1000000 1) := by
  unfold generate_transaction
  rw [hd, hcid, hk]
  simp [Nat.mod_eq_of_lt hh]

/-- Witness for C3: the concrete instance of the spec, payload
"deadbeef", height 100, chain id 1, empty recipient. -/
theorem c3_transaction_fields_witness :
    generate_transaction (Client.mk 0 (some 1) (some (PrivKey.mk 7)))
      [1, 2] "deadbeef" "" 100 =
      some (Transaction.mk [222, 173, 190, 239] "" (encode [1, 2])
        188 1000000 1) :=
  c3_transaction_fields (Client.mk 0 (some 1) (some (PrivKey.mk 7)))
    [1, 2] "deadbeef" 100 [222, 173, 190, 239] (PrivKey.mk 7)
    rfl rfl (by decide) (by decide)

/-! ## Claim C4 -/

/-- C4: transaction construction fails immediately (a panic, `none` in
the model) whenever the payload is not valid hex, or no chain id is
configured, or no private key is configured — it never silently
defaults. -/
theorem c4_precondition_failures (c : Client) (uuid : List Nat)
    (code : String) (address : String) (h : Nat)
    (hbad : decode code = none ∨ c.chain_id = none ∨
      c.private_key = none) :
    generate_transaction c uuid code address h = none := by
  unfold generate_transaction
  cases hdc : decode code with
  | none => rfl
  | some d =>
    rcases hbad with hd | hc | hk
    · rw [hdc] at hd
      exact Option.noConfusion hd
    · rw [hc]
    · cases hcc : c.chain_id with
      | none => rfl
      | some cid => rw [hk]

/-- Witness for C4: a malformed hex payload makes the construction
fail. -/
theorem c4_precondition_failures_witness :
    generate_transaction (Client.mk 0 (some 1) (some (PrivKey.mk 7)))
      [] "zz" "" 0 = none :=
  c4_precondition_failures (Client.mk 0 (some 1) (some (PrivKey.mk 7)))
    [] "zz" "" 0 (Or.inl rfl)

/-! ## Claim C5 -/

/-- C5: whenever `send_request` over N urls succeeds, the response list
has exactly length N, and its i-th element is the decoded response of
the request sent to the i-th url (all carrying the same broadcast
body) — output order follows input order by construction of the joined
request list, independent of network completion order. -/
theorem c5_responses_follow_input_order (net : Net) (parse : Parse)
    (c : Client) (urls : List String) (params : JsonRpcParams)
    (rs : List JsonRpcResponse) (c1 : Client) (n : Nat)
    (h : send_request net parse c urls params =
      some (Except.ok rs, c1, n)) :
    rs.length = urls.length ∧
    ∀ (i : Nat) (hi : i < urls.length) (hj : i < rs.length),
      (net (urls.get ⟨i, hi⟩)
        (JsonRpcParams.insert params "id"
          (ParamsValue.int ((c.id + 1) % U64SIZE)))).bind parse =
        some (rs.get ⟨i, hj⟩) := by
  simp only [send_request] at h
  cases hr : run net parse (make_requests_with_all_url c urls params).1 with
  | none =>
    rw [hr] at h
    exact absurd h (by simp)
  | some rs0 =>
    rw [hr] at h
    simp only [Option.some.injEq, Prod.mk.injEq, Except.ok.injEq] at h
    obtain ⟨hrs, _, _⟩ := h
    rw [← hrs]
    simp only [run, make_requests_with_all_url, Option.bind_eq_bind,
      Option.bind_eq_some] at hr
    obtain ⟨chunks, hchunks, hparse⟩ := hr
    have hlenc : chunks.length = urls.length := by
      rw [mapM_option_length _ _ chunks hchunks, List.length_map]
    have hlenr : rs0.length = chunks.length :=
      mapM_option_length parse chunks rs0 hparse
    refine ⟨by omega, ?_⟩
    intro i hi hj
    have hic : i < chunks.length := by omega
    have him : i < (urls.map (fun u =>
        (u, JsonRpcParams.insert params "id"
          (ParamsValue.int ((c.id + 1) % U64SIZE))))).length := by
      simpa using hi
    have h1 := mapM_option_get _ _ chunks hchunks i him hic
    have h2 := mapM_option_get parse chunks rs0 hparse i hic hj
    rw [List.get_map] at h1
    simp only at h1
    rw [h1, Option.some_bind]
    exact h2

/-- Witness for C5: two urls with an echoing network yield two responses
in url order; the first conjunct (length preservation) instantiated. -/
theorem c5_responses_follow_input_order_witness :
    ([JsonRpcResponse.mk "a" 0 none none,
      JsonRpcResponse.mk "b" 0 none none] :
      List JsonRpcResponse).length = (["a", "b"] : List String).length :=
  (c5_responses_follow_input_order (fun u _ => some u)
    (fun s => some (JsonRpcResponse.mk s 0 none none))
    (Client.mk 0 none none) ["a", "b"] []
    [JsonRpcResponse.mk "a" 0 none none,
     JsonRpcResponse.mk "b" 0 none none]
    (Client.mk 1 none none) 2 rfl).1

/-! ## Claim C6 -/

/-- C6: `make_requests_with_params_list` with K parameter sets sends
exactly one request per parameter set, all to the single target url,
the i-th body being the i-th parameter set carrying id
(c.id + i + 1) mod 2^64 — one counter increment per request, ids in
sequence order — and the final counter is (c.id + K) mod 2^64. -/
theorem c6_one_request_per_params (c : Client) (url : String)
    (ps : List JsonRpcParams) (hid : c.id < U64SIZE) :
    (make_requests_with_params_list c url ps).1.length = ps.length ∧
    (∀ (i : Nat) (hi : i < ps.length)
        (hj : i < (make_requests_with_params_list c url ps).1.length),
      (make_requests_with_params_list c url ps).1.get ⟨i, hj⟩ =
        (url, JsonRpcParams.insert (ps.get ⟨i, hi⟩) "id"
          (ParamsValue.int ((c.id + i + 1) % U64SIZE)))) ∧
    (make_requests_with_params_list c url ps).2 =
      { c with id := (c.id + ps.length) % U64SIZE } := by
  refine ⟨?_, ?_, ?_⟩
  · simp [make_requests_with_params_list, assignIds_length]
  · intro i hi hj
    have hj' : i < (assignIds c.id ps).1.length := by
      rw [assignIds_length]; exact hi
    simp only [make_requests_with_params_list, List.get_map]
    rw [assignIds_get c.id ps i hi hj']
  · simp only [make_requests_with_params_list]
    rw [assignIds_snd c.id ps hid]

/-- Witness for C6: two empty parameter sets starting at counter 5
advance the counter to 7. -/
theorem c6_one_request_per_params_witness :
    (make_requests_with_params_list (Client.mk 5 none none) "u"
      [([] : JsonRpcParams), []]).2 = Client.mk 7 none none :=
  (c6_one_request_per_params (Client.mk 5 none none) "u"
    [([] : JsonRpcParams), []] (by decide)).2.2

/-! ## Claim C7 -/

/-- C7: with a chain id already configured, `get_chain_id` returns the
cached value, leaves the client unchanged and issues zero network
calls; consequently any later call on the resulting client again issues
zero network calls. -/
theorem c7_cached_chain_id_no_network (net : Net) (parse : Parse)
    (c : Client) (url : String) (v : Nat) (hc : c.chain_id = some v) :
    get_chain_id net parse c url = some (v, c, 0) := by
  unfold get_chain_id
  rw [hc]

/-- Witness for C7: a client with cached chain id 9 returns 9 with zero
network calls even though every network request would fail. -/
theorem c7_cached_chain_id_no_network_witness :
    get_chain_id (fun _ _ => none) (fun _ => none)
      (Client.mk 0 (some 9) none) "u" =
      some (9, Client.mk 0 (some 9) none, 0) :=
  c7_cached_chain_id_no_network (fun _ _ => none) (fun _ => none)
    (Client.mk 0 (some 9) none) "u" 9 rfl

/-! ## Claim C8 -/

/-- C8: every stubbed `ClientExt` query method returns its fixed
type-default or hardcoded placeholder for every client and url,
performs zero network calls and leaves the client state unchanged. -/
theorem c8_stubs_fixed_values (c : Client) (url : String) :
    get_net_peer_count c url = (0, c, 0) ∧
    send_transaction c url = (Except.ok "tx_hash", c, 0) ∧
    get_block_by_hash c url = (JsonRpcResponse.defaultResp, c, 0) ∧
    get_block_by_number c url = (JsonRpcResponse.defaultResp, c, 0) ∧
    get_transaction_receipt c url = (JsonRpcResponse.defaultResp, c, 0) ∧
    get_logs c url = (JsonRpcResponse.defaultResp, c, 0) ∧
    call c url = (JsonRpcResponse.defaultResp, c, 0) ∧
    get_transaction c url = (JsonRpcResponse.defaultResp, c, 0) ∧
    get_transaction_count c url = (0, c, 0) ∧
    get_code c url = ("", c, 0) ∧
    get_abi c url = ("", c, 0) ∧
    get_balance c url = (0, c, 0) ∧
    new_filter c url = (0, c, 0) ∧
    new_block_filter c url = (0, c, 0) ∧
    uninstall_filter c url = (false, c, 0) ∧
    get_filter_changes c url = (JsonRpcResponse.defaultResp, c, 0) ∧
    get_filter_logs c url = (JsonRpcResponse.defaultResp, c, 0) ∧
    get_transaction_proof c url = (JsonRpcResponse.defaultResp, c, 0) :=
  ⟨rfl, rfl, rfl, rfl, rfl, rfl, rfl, rfl, rfl, rfl, rfl, rfl, rfl, rfl,
   rfl, rfl, rfl, rfl⟩

/-! ## Claim C9 -/

/-- C9: the Err variant of the Result returned by `send_request` and
`send_request_with_multiple_params` is unreachable — whenever either
function returns at all (does not panic), the returned value is Ok;
transport and deserialization failures abort inside `run` instead. -/
theorem c9_error_variant_unreachable (net : Net) (parse : Parse)
    (c : Client) (urls : List String) (params : JsonRpcParams)
    (url : String) (ps : List JsonRpcParams) :
    (∀ r c1 n, send_request net parse c urls params = some (r, c1, n) →
      ∃ rs, r = Except.ok rs) ∧
    (∀ r c1 n, send_request_with_multiple_params net parse c url ps =
        some (r, c1, n) → ∃ rs, r = Except.ok rs) := by
  constructor
  · intro r c1 n h
    simp only [send_request] at h
    cases hr : run net parse (make_requests_with_all_url c urls params).1 with
    | none =>
      rw [hr] at h
      exact absurd h (by simp)
    | some rs =>
      rw [hr] at h
      simp only [Option.some.injEq, Prod.mk.injEq] at h
      exact ⟨rs, h.1.symm⟩
  · intro r c1 n h
    simp only [send_request_with_multiple_params] at h
    cases hr : run net parse (make_requests_with_params_list c url ps).1 with
    | none =>
      rw [hr] at h
      exact absurd h (by simp)
    | some rs =>
      rw [hr] at h
      simp only [Option.some.injEq, Prod.mk.injEq] at h
      exact ⟨rs, h.1.symm⟩

/-- Witness for C9: a successful single-url dispatch is Ok. -/
theorem c9_error_variant_unreachable_witness :
    ∃ rs, (Except.ok [JsonRpcResponse.mk "a" 0 none none] :
      Except Unit (List JsonRpcResponse)) = Except.ok rs :=
  (c9_error_variant_unreachable (fun u _ => some u)
    (fun s => some (JsonRpcResponse.mk s 0 none none))
    (Client.mk 0 none none) ["a"] [] "u" []).1
    (Except.ok [JsonRpcResponse.mk "a" 0 none none])
    (Client.mk 1 none none) 1 rfl

/-! ## Claim C10 -/

/-- C10: on the fallback path (metadata result not a map, or chainId
present but not an integer) `get_chain_id` returns 0 but leaves the
cached chain_id unchanged (still none); hence a subsequent call takes
the network path again — whenever it returns, it issued one fresh
metadata network call rather than answering from a cached 0. -/
theorem c10_fallback_leaves_cache_empty (net : Net) (parse : Parse)
    (c : Client) (url : String) (r : JsonRpcResponse) (c1 : Client)
    (n : Nat)
    (hnone : c.chain_id = none)
    (hm : get_metadata net parse c url = some (r, c1, n))
    (hfb : (∀ m, r.result ≠ some (ResponseValue.map m)) ∨
      (∃ m v, r.result = some (ResponseValue.map m) ∧
        List.lookup "chainId" m = some v ∧ ∀ k, v ≠ ParamsValue.int k)) :
    get_chain_id net parse c url = some (0, c1, n) ∧
    c1.chain_id = none ∧
    ∀ v2 c2 n2, get_chain_id net parse c1 url = some (v2, c2, n2) →
      n2 = 1 := by
  have hc1 : c1.chain_id = none := by
    have := (get_metadata_frame net parse c url r c1 n hm).1
    rw [this]
    exact hnone
  refine ⟨?_, hc1, ?_⟩
  · rcases hfb with hnm | ⟨m, v, hres, hlk, hnint⟩
    · exact get_chain_id_not_map net parse c url r c1 n hnone hm hnm
    · exact get_chain_id_non_int net parse c url r c1 n m v hnone hm hres
        hlk hnint
  · intro v2 c2 n2 h2
    exact get_chain_id_calls_eq_one net parse c1 url v2 c2 n2 hc1 h2

/-- Witness for C10: a metadata response whose result is a bare string
value takes the fallback, returns 0 and leaves the cache empty. -/
theorem c10_fallback_leaves_cache_empty_witness :
    get_chain_id (fun _ _ => some "x")
      (fun _ => some (JsonRpcResponse.mk "" 0
        (some (ResponseValue.singe (ParamsValue.string "oops"))) none))
      (Client.mk 10 none none) "u" =
      some (0, Client.mk 11 none none, 1) ∧
    (Client.mk 11 none none).chain_id = none :=
  And.intro
    ((c10_fallback_leaves_cache_empty (fun _ _ => some "x")
      (fun _ => some (JsonRpcResponse.mk "" 0
        (some (ResponseValue.singe (ParamsValue.string "oops"))) none))
      (Client.mk 10 none none) "u"
      (JsonRpcResponse.mk "" 0
        (some (ResponseValue.singe (ParamsValue.string "oops"))) none)
      (Client.mk 11 none none) 1 rfl rfl
      (Or.inl (fun _ h => by simp at h))).1)
    ((c10_fallback_leaves_cache_empty (fun _ _ => some "x")
      (fun _ => some (JsonRpcResponse.mk "" 0
        (some (ResponseValue.singe (ParamsValue.string "oops"))) none))
      (Client.mk 10 none none) "u"
      (JsonRpcResponse.mk "" 0
        (some (ResponseValue.singe (ParamsValue.string "oops"))) none)
      (Client.mk 11 none none) 1 rfl rfl
      (Or.inl (fun _ h => by simp at h))).2.1)

end CitaClient
